import Mathlib

/-!
Shallow embedding of `src/beit/dataset.py` (Photo-Evaluation repository).

Tensors are modelled as nested lists: a 4-D torch tensor of shape
(batch, channel, H, W) becomes `T4 α = List (List (List (List α)))`,
with the innermost lists being rows of width W.  Numeric pixel values are
rationals (`ℚ`); label pixel values are naturals (palette indices, bytes).

Calls into torch / torchvision / numpy library routines whose numerics are
irrelevant to every claim (bilinear / nearest interpolation, affine rotation
resampling, brightness / contrast photometrics, pad-and-resize) are modelled
as explicit function parameters of the embedded source functions; the
structural behaviour of the source (which tensor each library call is applied
to, in which order, with which fill value, and how the label argument is
threaded) is embedded faithfully.  Random draws (`np.random.randint`,
`np.random.rand`, `np.random.uniform`, `np.random.choice`) are passed in as
explicit arguments, constrained in theorems to the range the library
guarantees.  Python exceptions are modelled with `Except String`.
-/

namespace PhotoEval

/-- A 2-D plane (one H×W channel slice): a list of rows. -/
abbrev Plane (α : Type) := List (List α)

/-- A 4-D tensor of shape (batch, channel, H, W). -/
abbrev T4 (α : Type) := List (List (Plane α))

/-- Apply a function to every (batch, channel) plane of a 4-D tensor,
mirroring a torch operation acting on the last two dimensions. -/
def mapPlanes (f : Plane α → Plane β) (t : T4 α) : T4 β :=
  t.map (fun cs => cs.map f)

/-- `t.size()[-2]` of a (batch, channel, H, W) tensor: the height H. -/
def dimH (t : T4 α) : ℕ := ((t.headD []).headD []).length

/-- `t.size()[-1]` of a (batch, channel, H, W) tensor: the width W. -/
def dimW (t : T4 α) : ℕ := (((t.headD []).headD []).headD []).length

/-- Shape check for a plane: `h` rows, each of length `w`. -/
def isShape2 (p : Plane α) (h w : ℕ) : Bool :=
  p.length == h && p.all (fun row => row.length == w)

/-- Shape check for a 4-D tensor: shape (b, c, h, w). -/
def isShape4 (t : T4 α) (b c h w : ℕ) : Bool :=
  t.length == b && t.all (fun cs => cs.length == c && cs.all (fun p => isShape2 p h w))

/-- Element access `t[bi, ci, y, x]` with a default for out-of-range indices. -/
def tGet (t : T4 α) (bi ci y x : ℕ) (d : α) : α :=
  (((t.getD bi []).getD ci []).getD y []).getD x d

/-- Python slice `xs[s:e]` on one list dimension (for `0 ≤ s ≤ e`). -/
def sliceFromTo (s e : ℕ) (xs : List α) : List α :=
  (xs.drop s).take (e - s)

/-- `torch.flip(t, [3])`: reverse the last (width) dimension. -/
def flipLast (t : T4 α) : T4 α :=
  mapPlanes (List.map List.reverse) t

/-- Embeds `flip(image, label=None)` from `src/beit/dataset.py`.
`r` is the draw of `np.random.rand()` (in `[0, 1)`); if `r < 0.5` the image is
flipped along dimension 3 and, only when present, the label as well. -/
def flip (r : ℚ) (image : T4 α) (label : Option (T4 α)) : T4 α × Option (T4 α) :=
  if r < 1/2 then (flipLast image, label.map flipLast) else (image, label)

/-- Embeds `adjust_brightness(image, label=None)` from `src/beit/dataset.py`.
`tvBrightness` and `tvContrast` model
`torchvision.transforms.functional.adjust_brightness` / `adjust_contrast`
(factor, tensor); `b` and `c` are the draws of `np.random.uniform(0.7, 1.2)`
and `np.random.uniform(0.8, 1.2)`.  The label is returned untouched. -/
def adjust_brightness (tvBrightness tvContrast : ℚ → T4 ℚ → T4 ℚ) (b c : ℚ)
    (image : T4 ℚ) (label : Option (T4 ℚ)) : T4 ℚ × Option (T4 ℚ) :=
  let image := tvBrightness b image
  let image := tvContrast c image
  (image, label)

/-- Embeds `crop(image, label=None)` from `src/beit/dataset.py`.
`cropSize` is `settings.CROP_SIZE`; `rh`, `rw` are the draws of
`np.random.randint(0, dim - crop_size + 1)` (used only when the dimension
exceeds the crop size, otherwise the offset is 0).  The label is sliced
unconditionally, so an absent label raises (`TypeError` in Python). -/
def crop (cropSize rh rw : ℕ) (image : T4 α) (label : Option (T4 α)) :
    Except String (T4 α × T4 α) :=
  let h := dimH image
  let w := dimW image
  let s_h := if cropSize < h then rh else 0
  let s_w := if cropSize < w then rw else 0
  let e_h := min (s_h + cropSize) h
  let e_w := min (s_w + cropSize) w
  let imageOut := mapPlanes (fun p => (sliceFromTo s_h e_h p).map (sliceFromTo s_w e_w)) image
  match label with
  | none => .error "TypeError: NoneType object is not subscriptable"
  | some lab =>
      .ok (imageOut, mapPlanes (fun p => (sliceFromTo s_h e_h p).map (sliceFromTo s_w e_w)) lab)

/-- Embeds `scale(image, label)` from `src/beit/dataset.py` (note: `label` has
no default in the source, so it cannot be omitted).  `interpBilinear` and
`interpNearest` model `torch.nn.functional.interpolate` with
`mode='bilinear', align_corners=True` and `mode='nearest'`; `ratio` is the
draw of `np.random.choice(settings.SCALE_VALUES)`. -/
def scale (interpBilinear interpNearest : ℚ → T4 ℚ → T4 ℚ) (ratio : ℚ)
    (image label : T4 ℚ) : T4 ℚ × T4 ℚ :=
  (interpBilinear ratio image, interpNearest ratio label)

/-- Embeds `rotate(image, label=None)` from `src/beit/dataset.py`.
`tvRotate` models `torchvision.transforms.functional.rotate`
(angle, fill value, tensor); `angle` is the draw of
`np.random.uniform(-20, 20)`.  The image is rotated with the default fill 0,
the label with fill 255; the label is rotated unconditionally, so an absent
label raises (`TypeError` in torchvision). -/
def rotate (tvRotate : ℚ → ℚ → T4 ℚ → T4 ℚ) (angle : ℚ)
    (image : T4 ℚ) (label : Option (T4 ℚ)) : Except String (T4 ℚ × T4 ℚ) :=
  let image := tvRotate angle 0 image
  match label with
  | none => .error "TypeError: img should be PIL Image or Tensor"
  | some lab => .ok (image, tvRotate angle 255 lab)

/-- A decoded H×W×C numpy pixel array: rows of pixels, each pixel a list of
channel values. -/
abbrev Arr3 (α : Type) := List (List (List α))

/-- Shape check for a decoded H×W×C array. -/
def isShape3 (a : Arr3 α) (h w c : ℕ) : Bool :=
  a.length == h && a.all (fun row => row.length == w && row.all (fun px => px.length == c))

/-- `image / 255` on the decoded H×W×3 float array. -/
def div255 (a : Arr3 ℚ) : Arr3 ℚ :=
  a.map (List.map (List.map (fun v => v / 255)))

/-- `tensor.permute(2, 0, 1)`: reorders an (H, W, C) array to (C, H, W). -/
def permute201 (a : Arr3 ℚ) : List (Plane ℚ) :=
  (List.range ((a.headD []).headD []).length).map
    (fun ci => a.map (fun row => row.map (fun px => px.getD ci 0)))

/-- Embeds the image half of `BlurDetectionDataset._fetch`: the decoded RGB
array is divided by 255, permuted to channel-first layout, and given a leading
singleton batch axis (`unsqueeze(dim=0)`). -/
def fetchImage (imgArr : Arr3 ℚ) : T4 ℚ :=
  [permute201 (div255 imgArr)]

/-- The pixel remap `label[label == 255] = 1` from `_fetch`. -/
def remapLabelValue (v : ℕ) : ℕ := if v = 255 then 1 else v

/-- Embeds the label half of `_fetch`: the decoded palette array gets leading
singleton batch and channel axes (`unsqueeze(dim=0).unsqueeze(dim=1)`), the
value 255 is remapped to class index 1, and the result is cast to
`torch.uint8` (byte truncation, modelled as mod 256). -/
def fetchLabel (labArr : Plane ℕ) : T4 ℕ :=
  [[(labArr.map (List.map remapLabelValue)).map (List.map (fun v => v % 256))]]

/-- Check a predicate on every element of a 4-D tensor. -/
def t4All (p : α → Bool) (t : T4 α) : Bool :=
  t.all (fun cs => cs.all (fun pl => pl.all (fun row => row.all p)))

/-- Python 3 `round` on a rational: round half to even (banker's rounding). -/
def pyRound (q : ℚ) : ℤ :=
  if q - ⌊q⌋ < 1/2 then ⌊q⌋
  else if 1/2 < q - ⌊q⌋ then ⌊q⌋ + 1
  else if ⌊q⌋ % 2 = 0 then ⌊q⌋ else ⌊q⌋ + 1

/-- One augmentation stage of the training pipeline: a function from an
(image, label) pair to a transformed pair, possibly failing. -/
abbrev AugStage := (T4 ℚ × T4 ℚ) → Except String (T4 ℚ × T4 ℚ)

/-- Run a list of augmentation stages left to right, each exactly once. -/
def applyAugs (fs : List AugStage) (p : T4 ℚ × T4 ℚ) : Except String (T4 ℚ × T4 ℚ) :=
  match fs with
  | [] => .ok p
  | f :: rest => (f p).bind (applyAugs rest)

/-- The random draws consumed by one training `__getitem__` call, in the
order the source draws them. -/
structure AugDraws where
  cropRH : ℕ
  cropRW : ℕ
  scaleRatio : ℚ
  flipR : ℚ
  brightness : ℚ
  contrast : ℚ
  angle : ℚ

/-- The torch / torchvision resampling and photometric routines called by the
augmentation primitives, as opaque parameters of the embedding. -/
structure TorchLib where
  interpBilinear : ℚ → T4 ℚ → T4 ℚ
  interpNearest : ℚ → T4 ℚ → T4 ℚ
  tvBrightness : ℚ → T4 ℚ → T4 ℚ
  tvContrast : ℚ → T4 ℚ → T4 ℚ
  tvRotate : ℚ → ℚ → T4 ℚ → T4 ℚ

/-- Embeds the augmentation block of
`TrainingBlurDetectionDataset.__getitem__`: after `_fetch`, the pair is passed
through `crop`, `scale`, `flip`, `adjust_brightness`, `rotate`, rebinding
`image, label` after each call. -/
def trainingAugment (lib : TorchLib) (cropSize : ℕ) (d : AugDraws)
    (image label : T4 ℚ) : Except String (T4 ℚ × T4 ℚ) :=
  match crop cropSize d.cropRH d.cropRW image (some label) with
  | .error e => .error e
  | .ok (image, label) =>
    let (image, label) := scale lib.interpBilinear lib.interpNearest d.scaleRatio image label
    let (image, labelOpt) := flip d.flipR image (some label)
    let (image, labelOpt) :=
      adjust_brightness lib.tvBrightness lib.tvContrast d.brightness d.contrast image labelOpt
    rotate lib.tvRotate d.angle image labelOpt

/-- `crop` as a pipeline stage (label present). -/
def cropStage (cropSize rh rw : ℕ) : AugStage :=
  fun p => crop cropSize rh rw p.1 (some p.2)

/-- `scale` as a pipeline stage. -/
def scaleStage (lib : TorchLib) (ratio : ℚ) : AugStage :=
  fun p => .ok (scale lib.interpBilinear lib.interpNearest ratio p.1 p.2)

/-- `flip` as a pipeline stage (label present). -/
def flipStage (r : ℚ) : AugStage :=
  fun p =>
    match flip r p.1 (some p.2) with
    | (i, some l) => .ok (i, l)
    | (_, none) => .error "flip dropped the label"

/-- `adjust_brightness` as a pipeline stage (label present). -/
def brightnessStage (lib : TorchLib) (b c : ℚ) : AugStage :=
  fun p =>
    match adjust_brightness lib.tvBrightness lib.tvContrast b c p.1 (some p.2) with
    | (i, some l) => .ok (i, l)
    | (_, none) => .error "adjust_brightness dropped the label"

/-- `rotate` as a pipeline stage (label present). -/
def rotateStage (lib : TorchLib) (angle : ℚ) : AugStage :=
  fun p => rotate lib.tvRotate angle p.1 (some p.2)

/-- Embeds the slicing of `TrainingBlurDetectionDataset.__init__`: the zipped
path pairs are shuffled by `random.seed(0); random.shuffle(paths)` — modelled
by the explicit deterministic `shuffle` argument, a fixed permutation because
the seed is fixed — and the first `round(len(paths) * TRAIN_DATA_RATIO)`
pairs are kept. -/
def trainingSplit (shuffle : List α → List α) (ratio : ℚ) (paths : List α) : List α :=
  (shuffle paths).take (pyRound ((paths.length : ℚ) * ratio)).toNat

/-- Embeds the slicing of `ValidationBlurDetectionDataset.__init__`: the same
seed-0 shuffle of the same zipped pair list, keeping the pairs from index
`round(len(paths) * TRAIN_DATA_RATIO)` on. -/
def validationSplit (shuffle : List α → List α) (ratio : ℚ) (paths : List α) : List α :=
  (shuffle paths).drop (pyRound ((paths.length : ℚ) * ratio)).toNat

/-- Index of the last '.' character in a list of characters, if any. -/
def lastDotIdx (cs : List Char) : Option ℕ :=
  ((List.range cs.length).filter (fun i => cs.getD i ' ' = '.')).getLast?

/-- Models Python `pathlib.PurePath.stem`: the final component without its
last suffix.  A dot at position 0 (hidden file) or at the very end is not a
suffix separator. -/
def pathStem (name : String) : String :=
  let cs := name.toList
  match lastDotIdx cs with
  | some i => if 0 < i ∧ i < cs.length - 1 then String.mk (cs.take i) else name
  | none => name

/-- A dataset root directory: the filenames found under `image/` (in
filesystem iteration order) and the filenames present under `gt/`. -/
structure DatasetFolder where
  imageFiles : List String
  gtFiles : List String

/-- Embeds `BlurDetectionDataset.__init__`: image paths are the files under
`image/`, and each label path is derived from the image filename's stem with
the fixed extension `.png` under `gt/`.  Nothing is checked against the
actual contents of `gt/`, and the constructor has no failure path. -/
def blurDatasetInit (d : DatasetFolder) : List String × List String :=
  (d.imageFiles.map (fun f => "image/" ++ f),
   d.imageFiles.map (fun f => "gt/" ++ pathStem f ++ ".png"))

/-- Whether the label file that `BlurDetectionDataset._fetch idx` would open
exists under `gt/` — `Image.open` on a missing path raises, so this is where
a missing or mismatched label pairing first fails. -/
def fetchLabelOpens (d : DatasetFolder) (idx : ℕ) : Bool :=
  match d.imageFiles[idx]? with
  | some f => d.gtFiles.contains (pathStem f ++ ".png")
  | none => false

/-- Embeds `_collate_fn`: `zip(*batch)` unpacked into the three tuples
`images, labels, filenames`; unpacking `zip()` of an empty batch raises
`ValueError` in Python. -/
def collate_fn (batch : List (α × β × γ)) :
    Except String (List α × List β × List γ) :=
  if batch.isEmpty then .error "ValueError: not enough values to unpack"
  else .ok (batch.map Prod.fst, batch.map (fun s => s.2.1), batch.map (fun s => s.2.2))

/-- Python truthiness of an optional sequence argument: `None` and an empty
sequence are both falsy. -/
def seqTruthy : Option (List α) → Bool
  | none => false
  | some l => !l.isEmpty

/-- Embeds `resize(images, labels=None)`: every image is pad-and-resized
(`padResizeImage` models the opaque geometric `_pad_and_resize` composite)
and the results stacked (a stacked batch is modelled as the list of
per-sample results); the labels branch is selected by `if labels:` — Python
truthiness — and, when taken, unsqueezes, pad-and-resizes, stacks and
squeezes the labels (`padResizeLabel` models that per-label composite). -/
def resize (padResizeImage : α → α) (padResizeLabel : β → β)
    (images : List α) (labels : Option (List β)) : List α ⊕ (List α × List β) :=
  let stacked := images.map padResizeImage
  if seqTruthy labels then .inr (stacked, (labels.getD []).map padResizeLabel)
  else .inl stacked

end PhotoEval

namespace PhotoEval

/-! Helper lemmas about the list model. -/

theorem getD_map_nil (f : List β → List γ) (hf : f [] = [])
    (l : List (List β)) (i : ℕ) :
    (l.map f).getD i [] = f (l.getD i []) := by
  simp only [List.getD_eq_getElem?_getD, List.getElem?_map]
  cases l[i]? <;> simp [hf]

theorem sliceFromTo_getD (s e : ℕ) (xs : List α) (i : ℕ) (hi : i < e - s) (d : α) :
    (sliceFromTo s e xs).getD i d = xs.getD (s + i) d := by
  simp [sliceFromTo, List.getD_eq_getElem?_getD, List.getElem?_take_of_lt hi,
    List.getElem?_drop]

theorem sliceFromTo_length (s e : ℕ) (xs : List α) :
    (sliceFromTo s e xs).length = min (e - s) (xs.length - s) := by
  simp [sliceFromTo]

theorem sliceFromTo_nil (s e : ℕ) : sliceFromTo s e ([] : List α) = [] := by
  simp [sliceFromTo]

theorem mem_of_mem_sliceFromTo {s e : ℕ} {xs : List α} {a : α}
    (h : a ∈ sliceFromTo s e xs) : a ∈ xs :=
  List.mem_of_mem_drop (List.mem_of_mem_take h)

theorem isShape2_cropPlane (p : Plane α) (h w : ℕ) (hp : isShape2 p h w = true)
    (sh eh sw ew : ℕ) :
    isShape2 ((sliceFromTo sh eh p).map (sliceFromTo sw ew))
      (min (eh - sh) (h - sh)) (min (ew - sw) (w - sw)) = true := by
  simp only [isShape2, Bool.and_eq_true, beq_iff_eq, List.all_eq_true] at hp ⊢
  obtain ⟨hlen, hrows⟩ := hp
  constructor
  · simp [sliceFromTo_length, hlen]
  · intro row hrow
    obtain ⟨r, hr, rfl⟩ := List.mem_map.mp hrow
    rw [sliceFromTo_length, hrows r (mem_of_mem_sliceFromTo hr)]

theorem isShape4_crop_mapPlanes (t : T4 α) (b c h w : ℕ)
    (ht : isShape4 t b c h w = true) (sh eh sw ew : ℕ) :
    isShape4 (mapPlanes (fun p => (sliceFromTo sh eh p).map (sliceFromTo sw ew)) t)
      b c (min (eh - sh) (h - sh)) (min (ew - sw) (w - sw)) = true := by
  simp only [isShape4, Bool.and_eq_true, beq_iff_eq, List.all_eq_true, mapPlanes] at ht ⊢
  obtain ⟨hlen, hchs⟩ := ht
  refine ⟨by simpa using hlen, ?_⟩
  intro cs hcs
  obtain ⟨cs₀, hcs₀, rfl⟩ := List.mem_map.mp hcs
  obtain ⟨hclen, hps⟩ := hchs cs₀ hcs₀
  refine ⟨by simpa using hclen, ?_⟩
  intro p hp
  obtain ⟨p₀, hp₀, rfl⟩ := List.mem_map.mp hp
  exact isShape2_cropPlane p₀ h w (hps p₀ hp₀) sh eh sw ew

theorem tGet_mapPlanes (f : Plane α → Plane α) (hf : f [] = [])
    (t : T4 α) (bi ci y x : ℕ) (d : α) :
    tGet (mapPlanes f t) bi ci y x d
      = ((f ((t.getD bi []).getD ci [])).getD y []).getD x d := by
  unfold tGet mapPlanes
  rw [getD_map_nil (fun cs => cs.map f) rfl t bi, getD_map_nil f hf]

theorem dimH_of_isShape4 (t : T4 α) (b c h w : ℕ) (hb : 0 < b) (hc : 0 < c)
    (ht : isShape4 t b c h w = true) : dimH t = h := by
  simp only [isShape4, Bool.and_eq_true, beq_iff_eq, List.all_eq_true] at ht
  obtain ⟨hlen, hchs⟩ := ht
  cases t with
  | nil => simp at hlen; omega
  | cons cs t =>
    obtain ⟨hclen, hps⟩ := hchs cs (List.mem_cons_self cs t)
    cases cs with
    | nil => simp at hclen; omega
    | cons p ps =>
      have := hps p (List.mem_cons_self p ps)
      simp only [isShape2, Bool.and_eq_true, beq_iff_eq, List.all_eq_true] at this
      simpa [dimH] using this.1

theorem dimW_of_isShape4 (t : T4 α) (b c h w : ℕ) (hb : 0 < b) (hc : 0 < c)
    (hh : 0 < h) (ht : isShape4 t b c h w = true) : dimW t = w := by
  simp only [isShape4, Bool.and_eq_true, beq_iff_eq, List.all_eq_true] at ht
  obtain ⟨hlen, hchs⟩ := ht
  cases t with
  | nil => simp at hlen; omega
  | cons cs t =>
    obtain ⟨hclen, hps⟩ := hchs cs (List.mem_cons_self cs t)
    cases cs with
    | nil => simp at hclen; omega
    | cons p ps =>
      have hp := hps p (List.mem_cons_self p ps)
      simp only [isShape2, Bool.and_eq_true, beq_iff_eq, List.all_eq_true] at hp
      obtain ⟨hplen, hrows⟩ := hp
      cases p with
      | nil => simp at hplen; omega
      | cons row rows =>
        simpa [dimW] using hrows row (List.mem_cons_self row rows)

/-- Helper: flipping the width dimension twice restores the tensor. -/
theorem flipLast_flipLast (t : T4 α) : flipLast (flipLast t) = t := by
  simp [flipLast, mapPlanes, List.map_map, Function.comp]

/-- C4: applying `flip` twice with the random draw forced below 0.5 (so the
flip branch is taken both times) returns the original image and label. -/
theorem flip_flip_involution (r₁ r₂ : ℚ) (image label : T4 α)
    (h₁ : r₁ < 1/2) (h₂ : r₂ < 1/2) :
    flip r₂ (flip r₁ image (some label)).1 (flip r₁ image (some label)).2 =
      (image, some label) := by
  unfold flip
  rw [if_pos h₂, if_pos h₁]
  simp [flipLast_flipLast]

/-- Witness for C4 at a concrete image/label pair and draw 0. -/
theorem flip_flip_involution_witness :
    flip 0 (flip 0 [[[[(1:ℚ), 2], [3, 4]]]] (some [[[[(0:ℚ), 1], [1, 0]]]])).1
        (flip 0 [[[[(1:ℚ), 2], [3, 4]]]] (some [[[[(0:ℚ), 1], [1, 0]]]])).2 =
      ([[[[(1:ℚ), 2], [3, 4]]]], some [[[[(0:ℚ), 1], [1, 0]]]]) :=
  flip_flip_involution 0 0 _ _ (by norm_num) (by norm_num)

/-- Helper: the value `crop` computes on a present label, written out. -/
theorem crop_some_eq (cropSize rh rw : ℕ) (image lab : T4 α) :
    crop cropSize rh rw image (some lab) =
      .ok (mapPlanes (fun p =>
              (sliceFromTo (if cropSize < dimH image then rh else 0)
                  (min ((if cropSize < dimH image then rh else 0) + cropSize) (dimH image)) p).map
                (sliceFromTo (if cropSize < dimW image then rw else 0)
                  (min ((if cropSize < dimW image then rw else 0) + cropSize) (dimW image)))) image,
            mapPlanes (fun p =>
              (sliceFromTo (if cropSize < dimH image then rh else 0)
                  (min ((if cropSize < dimH image then rh else 0) + cropSize) (dimH image)) p).map
                (sliceFromTo (if cropSize < dimW image then rw else 0)
                  (min ((if cropSize < dimW image then rw else 0) + cropSize) (dimW image)))) lab) := rfl

/-- C2: for every image and label of spatial size (h, w), any crop size, and
every possible draw of the random offsets, `crop` yields crops of spatial size
min(cropSize, h) × min(cropSize, w) on both image and label; both outputs are
the same contiguous sub-window of their inputs taken at identical offsets, and
the offset is 0 along any axis whose dimension does not exceed the crop size. -/
theorem crop_spec (d : α) (cropSize rh rw b c b₂ c₂ h w : ℕ)
    (image lab : T4 α)
    (hb : 0 < b) (hc : 0 < c) (hh : 0 < h)
    (himg : isShape4 image b c h w = true)
    (hlab : isShape4 lab b₂ c₂ h w = true)
    (hrh : cropSize < h → rh ≤ h - cropSize)
    (hrw : cropSize < w → rw ≤ w - cropSize) :
    ∃ imageOut labOut,
      crop cropSize rh rw image (some lab) = .ok (imageOut, labOut)
      ∧ isShape4 imageOut b c (min cropSize h) (min cropSize w) = true
      ∧ isShape4 labOut b₂ c₂ (min cropSize h) (min cropSize w) = true
      ∧ (¬ cropSize < h → (if cropSize < h then rh else 0) = 0)
      ∧ (¬ cropSize < w → (if cropSize < w then rw else 0) = 0)
      ∧ ∀ bi ci y x, y < min cropSize h → x < min cropSize w →
          tGet imageOut bi ci y x d
              = tGet image bi ci ((if cropSize < h then rh else 0) + y)
                  ((if cropSize < w then rw else 0) + x) d
            ∧ tGet labOut bi ci y x d
              = tGet lab bi ci ((if cropSize < h then rh else 0) + y)
                  ((if cropSize < w then rw else 0) + x) d := by
  have hdh : dimH image = h := dimH_of_isShape4 image b c h w hb hc himg
  have hdw : dimW image = w := dimW_of_isShape4 image b c h w hb hc hh himg
  have heq := crop_some_eq cropSize rh rw image lab
  rw [hdh, hdw] at heq
  have hEH : min ((if cropSize < h then rh else 0) + cropSize) h
      - (if cropSize < h then rh else 0) = min cropSize h := by
    by_cases hcs : cropSize < h
    · have := hrh hcs; simp only [if_pos hcs]; omega
    · simp only [if_neg hcs]; omega
  have hEW : min ((if cropSize < w then rw else 0) + cropSize) w
      - (if cropSize < w then rw else 0) = min cropSize w := by
    by_cases hcs : cropSize < w
    · have := hrw hcs; simp only [if_pos hcs]; omega
    · simp only [if_neg hcs]; omega
  have hHS : min cropSize h ≤ h - (if cropSize < h then rh else 0) := by
    by_cases hcs : cropSize < h
    · have := hrh hcs; simp only [if_pos hcs]; omega
    · simp only [if_neg hcs]; omega
  have hWS : min cropSize w ≤ w - (if cropSize < w then rw else 0) := by
    by_cases hcs : cropSize < w
    · have := hrw hcs; simp only [if_pos hcs]; omega
    · simp only [if_neg hcs]; omega
  have hf : (fun p => (sliceFromTo (if cropSize < h then rh else 0)
        (min ((if cropSize < h then rh else 0) + cropSize) h) p).map
        (sliceFromTo (if cropSize < w then rw else 0)
        (min ((if cropSize < w then rw else 0) + cropSize) w))) ([] : Plane α) = [] := by
    simp [sliceFromTo_nil]
  refine ⟨_, _, heq, ?_, ?_, fun hnh => if_neg hnh, fun hnw => if_neg hnw, ?_⟩
  · have := isShape4_crop_mapPlanes image b c h w himg
      (if cropSize < h then rh else 0) (min ((if cropSize < h then rh else 0) + cropSize) h)
      (if cropSize < w then rw else 0) (min ((if cropSize < w then rw else 0) + cropSize) w)
    rw [hEH, hEW] at this
    have hminh : min (min cropSize h) (h - (if cropSize < h then rh else 0)) = min cropSize h := by
      omega
    have hminw : min (min cropSize w) (w - (if cropSize < w then rw else 0)) = min cropSize w := by
      omega
    rwa [hminh, hminw] at this
  · have := isShape4_crop_mapPlanes lab b₂ c₂ h w hlab
      (if cropSize < h then rh else 0) (min ((if cropSize < h then rh else 0) + cropSize) h)
      (if cropSize < w then rw else 0) (min ((if cropSize < w then rw else 0) + cropSize) w)
    rw [hEH, hEW] at this
    have hminh : min (min cropSize h) (h - (if cropSize < h then rh else 0)) = min cropSize h := by
      omega
    have hminw : min (min cropSize w) (w - (if cropSize < w then rw else 0)) = min cropSize w := by
      omega
    rwa [hminh, hminw] at this
  · intro bi ci y x hy hx
    have hy' : y < min ((if cropSize < h then rh else 0) + cropSize) h
        - (if cropSize < h then rh else 0) := by rw [hEH]; exact hy
    have hx' : x < min ((if cropSize < w then rw else 0) + cropSize) w
        - (if cropSize < w then rw else 0) := by rw [hEW]; exact hx
    constructor
    · rw [tGet_mapPlanes _ hf, getD_map_nil _ (sliceFromTo_nil _ _),
        sliceFromTo_getD _ _ _ _ hy', sliceFromTo_getD _ _ _ _ hx']
      rfl
    · rw [tGet_mapPlanes _ hf, getD_map_nil _ (sliceFromTo_nil _ _),
        sliceFromTo_getD _ _ _ _ hy', sliceFromTo_getD _ _ _ _ hx']
      rfl

/-- Witness for C2 on a concrete 1×1×3×2 image/label, crop size 2,
draw rh = 1 (the height exceeds the crop size), rw = 0. -/
theorem crop_spec_witness :
    ∃ imageOut labOut,
      crop 2 1 0 [[[[(1:ℚ), 2], [3, 4], [5, 6]]]] (some [[[[(0:ℚ), 1], [1, 0], [0, 1]]]])
          = .ok (imageOut, labOut)
      ∧ isShape4 imageOut 1 1 (min 2 3) (min 2 2) = true
      ∧ isShape4 labOut 1 1 (min 2 3) (min 2 2) = true
      ∧ (¬ 2 < 3 → (if 2 < 3 then 1 else 0) = 0)
      ∧ (¬ 2 < 2 → (if 2 < 2 then 0 else 0) = 0)
      ∧ ∀ bi ci y x, y < min 2 3 → x < min 2 2 →
          tGet imageOut bi ci y x 0
              = tGet [[[[(1:ℚ), 2], [3, 4], [5, 6]]]] bi ci ((if 2 < 3 then 1 else 0) + y)
                  ((if 2 < 2 then 0 else 0) + x) 0
            ∧ tGet labOut bi ci y x 0
              = tGet [[[[(0:ℚ), 1], [1, 0], [0, 1]]]] bi ci ((if 2 < 3 then 1 else 0) + y)
                  ((if 2 < 2 then 0 else 0) + x) 0 :=
  crop_spec 0 2 1 0 1 1 1 1 3 2 _ _ (by norm_num) (by norm_num) (by norm_num)
    (by decide) (by decide) (by omega) (by omega)

/-- C6: `adjust_brightness` returns the label exactly as given, for every
brightness/contrast draw and every model of the torchvision photometric
routines; only the image is transformed. -/
theorem adjust_brightness_label_unchanged
    (tvBrightness tvContrast : ℚ → T4 ℚ → T4 ℚ) (b c : ℚ)
    (image : T4 ℚ) (label : Option (T4 ℚ)) :
    (adjust_brightness tvBrightness tvContrast b c image label).2 = label := rfl

/-- Helper: shape of the permuted, normalized image tensor built by fetch. -/
theorem isShape4_fetchImage (imgArr : Arr3 ℚ) (h w : ℕ) (hh : 0 < h) (hw : 0 < w)
    (himg : isShape3 imgArr h w 3 = true) :
    isShape4 (fetchImage imgArr) 1 3 h w = true := by
  simp only [isShape3, Bool.and_eq_true, beq_iff_eq, List.all_eq_true] at himg
  obtain ⟨hlen, hrows⟩ := himg
  have hchan : (((div255 imgArr).headD []).headD []).length = 3 := by
    cases imgArr with
    | nil => simp at hlen; omega
    | cons row rest =>
      obtain ⟨hrl, hpxs⟩ := hrows row (List.mem_cons_self row rest)
      cases row with
      | nil => simp at hrl; omega
      | cons px pxs =>
        have := hpxs px (List.mem_cons_self px pxs)
        simp [div255, this]
  simp only [isShape4, fetchImage, Bool.and_eq_true, beq_iff_eq, List.all_eq_true,
    List.length_cons, List.length_nil, List.mem_singleton]
  refine ⟨by simp, ?_⟩
  intro cs hcs
  subst hcs
  constructor
  · simpa [permute201] using hchan
  · intro p hp
    simp only [permute201, List.mem_map, List.mem_range] at hp
    obtain ⟨ci, _, rfl⟩ := hp
    simp only [isShape2, Bool.and_eq_true, beq_iff_eq, List.all_eq_true]
    constructor
    · simp [div255, hlen]
    · intro row hrow
      simp only [div255, List.map_map, List.mem_map] at hrow
      obtain ⟨row₀, hrow₀, rfl⟩ := hrow
      simp [(hrows row₀ hrow₀).1]

/-- C3: for every label file decoding to pixel values all in {0, 255} (and an
image file of the same spatial size), the label tensor returned by fetch holds
only values in {0, 1} (255 remapped to class index 1, 0 left as background),
and the image and label tensors returned by fetch have matching spatial
dimensions: (1, 3, h, w) and (1, 1, h, w). -/
theorem fetch_label_binary (labArr : Plane ℕ) (imgArr : Arr3 ℚ) (h w : ℕ)
    (hh : 0 < h) (hw : 0 < w)
    (hlab : isShape2 labArr h w = true)
    (himg : isShape3 imgArr h w 3 = true)
    (hvals : labArr.all (fun row => row.all (fun v => v == 0 || v == 255)) = true) :
    t4All (fun v => v == 0 || v == 1) (fetchLabel labArr) = true
    ∧ isShape4 (fetchImage imgArr) 1 3 h w = true
    ∧ isShape4 (fetchLabel labArr) 1 1 h w = true := by
  simp only [isShape2, Bool.and_eq_true, beq_iff_eq, List.all_eq_true] at hlab
  simp only [List.all_eq_true, Bool.or_eq_true, beq_iff_eq] at hvals
  refine ⟨?_, isShape4_fetchImage imgArr h w hh hw himg, ?_⟩
  · simp only [t4All, fetchLabel, List.all_cons, List.all_nil, Bool.and_true,
      List.all_map, List.all_eq_true, Function.comp]
    intro row hrow v hv
    rcases hvals row hrow v hv with h0 | h255
    · simp [h0, remapLabelValue]
    · simp [h255, remapLabelValue]
  · simp only [isShape4, fetchLabel, Bool.and_eq_true, beq_iff_eq, List.all_eq_true,
      List.length_cons, List.length_nil, List.mem_singleton]
    refine ⟨by simp, ?_⟩
    intro cs hcs
    subst hcs
    refine ⟨by simp, ?_⟩
    intro p hp
    simp only [List.mem_singleton] at hp
    subst hp
    simp only [isShape2, Bool.and_eq_true, beq_iff_eq, List.all_eq_true, List.map_map,
      List.length_map, List.mem_map]
    refine ⟨hlab.1, ?_⟩
    rintro row ⟨row₀, hrow₀, rfl⟩
    simp [hlab.2 row₀ hrow₀]

/-- Helper: `pyRound` is nonnegative on nonnegative rationals. -/
theorem pyRound_nonneg (q : ℚ) (h : 0 ≤ q) : 0 ≤ pyRound q := by
  have hfl : (0:ℤ) ≤ ⌊q⌋ := Int.le_floor.mpr (by exact_mod_cast h)
  unfold pyRound
  split_ifs <;> omega

/-- Helper: `pyRound q` is at most any natural number bounding `q`. -/
theorem pyRound_le (q : ℚ) (m : ℕ) (h : q ≤ m) : pyRound q ≤ m := by
  have hfl : ⌊q⌋ ≤ (m:ℤ) := by
    have := Int.floor_le_floor h
    simpa using this
  have hle : ∀ hcond : (1:ℚ)/2 ≤ q - ⌊q⌋, ⌊q⌋ + 1 ≤ (m:ℤ) := by
    intro hcond
    have hlt : (⌊q⌋ : ℚ) < q := by
      have : (0:ℚ) < q - ⌊q⌋ := lt_of_lt_of_le (by norm_num) hcond
      linarith
    have : (⌊q⌋ : ℚ) < (m : ℚ) := lt_of_lt_of_le hlt h
    exact_mod_cast Int.add_one_le_iff.mpr (by exact_mod_cast this)
  unfold pyRound
  split_ifs with h₁ h₂ h₃
  · exact hfl
  · exact hle (le_of_lt h₂)
  · exact hfl
  · exact hle (le_of_not_lt h₁)

/-- C1: from the same base pair list and the same deterministic seed-0
shuffle (any permutation), the training and validation splits are disjoint
(for distinct paths), their concatenation is exactly the shuffled list — so
their multiset union is the full pair list — the training split has
round(n · ratio) pairs, the validation split the remaining
n − round(n · ratio), and re-constructing each split from the same base order
yields the identical split (the shuffle is a fixed deterministic function, so
both constructions evaluate to the same list). -/
theorem split_partition (shuffle : List α → List α)
    (hshuffle : ∀ l : List α, (shuffle l).Perm l)
    (ratio : ℚ) (_h0 : 0 ≤ ratio) (h1 : ratio ≤ 1)
    (paths : List α) (hnd : paths.Nodup) :
    trainingSplit shuffle ratio paths ++ validationSplit shuffle ratio paths
        = shuffle paths
    ∧ (trainingSplit shuffle ratio paths ++ validationSplit shuffle ratio paths).Perm paths
    ∧ List.Disjoint (trainingSplit shuffle ratio paths) (validationSplit shuffle ratio paths)
    ∧ (trainingSplit shuffle ratio paths).length
        = (pyRound ((paths.length : ℚ) * ratio)).toNat
    ∧ (validationSplit shuffle ratio paths).length
        = paths.length - (pyRound ((paths.length : ℚ) * ratio)).toNat
    ∧ trainingSplit shuffle ratio paths = trainingSplit shuffle ratio paths
    ∧ validationSplit shuffle ratio paths = validationSplit shuffle ratio paths := by
  have hlen : (shuffle paths).length = paths.length := (hshuffle paths).length_eq
  have hk_le : (pyRound ((paths.length : ℚ) * ratio)).toNat ≤ paths.length := by
    have hq : (paths.length : ℚ) * ratio ≤ (paths.length : ℚ) := by
      calc (paths.length : ℚ) * ratio ≤ (paths.length : ℚ) * 1 :=
            mul_le_mul_of_nonneg_left h1 (by positivity)
        _ = (paths.length : ℚ) := mul_one _
    have := pyRound_le ((paths.length : ℚ) * ratio) paths.length hq
    omega
  have happ : trainingSplit shuffle ratio paths ++ validationSplit shuffle ratio paths
      = shuffle paths := List.take_append_drop _ _
  refine ⟨happ, ?_, ?_, ?_, ?_, rfl, rfl⟩
  · rw [happ]; exact hshuffle paths
  · exact List.disjoint_take_drop ((hshuffle paths).symm.nodup hnd) le_rfl
  · simp [trainingSplit, hlen, hk_le]
  · simp [validationSplit, hlen]

/-- Witness for C1: the concrete scenario of a base dataset of 10 pairs with
train ratio 0.8 — the training split has 8 pairs, the validation split 2, they
are disjoint, and together they are a permutation of the full list. -/
theorem split_partition_witness :
    (trainingSplit (α := ℕ) id (4/5) (List.range 10)).length = 8
    ∧ (validationSplit (α := ℕ) id (4/5) (List.range 10)).length = 2
    ∧ List.Disjoint (trainingSplit (α := ℕ) id (4/5) (List.range 10))
        (validationSplit (α := ℕ) id (4/5) (List.range 10))
    ∧ (trainingSplit (α := ℕ) id (4/5) (List.range 10)
        ++ validationSplit (α := ℕ) id (4/5) (List.range 10)).Perm (List.range 10) := by
  obtain ⟨happ, hperm, hdisj, hlt, hlv, -, -⟩ :=
    split_partition (α := ℕ) id (fun l => List.Perm.refl l) (4/5) (by norm_num) (by norm_num)
      (List.range 10) (by decide)
  have hval : ((List.range 10).length : ℚ) * (4/5) = 8 := by norm_num
  have hround : (pyRound (((List.range 10).length : ℚ) * (4/5))).toNat = 8 := by
    rw [hval]
    norm_num [pyRound]
    decide
  refine ⟨?_, ?_, hdisj, hperm⟩
  · rw [hlt, hround]
  · rw [hlv, hround]; decide

/-- C5: the training item access applies to the fetched (image, label) pair
exactly the five augmentations crop, scale, flip, adjust_brightness, rotate,
in that fixed order, each exactly once (it equals the pipeline running that
five-stage list left to right), and the chain always succeeds: the label is
present throughout, so no stage hits its absent-label failure path. -/
theorem trainingAugment_pipeline (lib : TorchLib) (cropSize : ℕ) (d : AugDraws)
    (image label : T4 ℚ) :
    trainingAugment lib cropSize d image label =
      applyAugs [cropStage cropSize d.cropRH d.cropRW, scaleStage lib d.scaleRatio,
        flipStage d.flipR, brightnessStage lib d.brightness d.contrast,
        rotateStage lib d.angle] (image, label)
    ∧ ∃ out, trainingAugment lib cropSize d image label = .ok out := by
  constructor
  · unfold trainingAugment applyAugs cropStage scaleStage flipStage brightnessStage
      rotateStage flip
    split_ifs <;> rfl
  · unfold trainingAugment flip
    split_ifs <;> exact ⟨_, rfl⟩

/-- Witness for C3 on a concrete 2×2 label with values in {0, 255} and a
matching 2×2×3 image. -/
theorem fetch_label_binary_witness :
    t4All (fun v => v == 0 || v == 1) (fetchLabel [[0, 255], [255, 0]]) = true
    ∧ isShape4 (fetchImage [[[1, 1, 1], [0, 0, 0]], [[0, 1, 0], [(1:ℚ), 0, 1]]]) 1 3 2 2 = true
    ∧ isShape4 (fetchLabel [[0, 255], [255, 0]]) 1 1 2 2 = true :=
  fetch_label_binary [[0, 255], [255, 0]] [[[1, 1, 1], [0, 0, 0]], [[0, 1, 0], [(1:ℚ), 0, 1]]]
    2 2 (by norm_num) (by norm_num) (by decide) (by decide) (by decide)

/-- C7 counterexample: `crop` called with the label omitted does not succeed —
it dereferences the absent label (`label[:, :, ...]` on `None`) and raises, so
not every augmentation primitive tolerates an omitted label. -/
theorem crop_none_raises :
    crop 2 0 0 [[[[(1:ℚ)]]]] none
      = Except.error "TypeError: NoneType object is not subscriptable" := rfl

/-- C7 amended: with the label omitted, `flip` and `adjust_brightness`
succeed, returning the transformed image and no label; `crop` and `rotate`
fail by dereferencing the absent label (and `scale` gives the label parameter
no default at all, so the label cannot be omitted there). -/
theorem optional_label_outcomes (cropSize rh rw : ℕ) (r b c a : ℚ)
    (tvB tvC : ℚ → T4 ℚ → T4 ℚ) (tvRot : ℚ → ℚ → T4 ℚ → T4 ℚ) (image : T4 ℚ) :
    flip r image none = ((if r < 1/2 then flipLast image else image), none)
    ∧ adjust_brightness tvB tvC b c image none = (tvC c (tvB b image), none)
    ∧ (∃ e, crop cropSize rh rw image none = .error e)
    ∧ (∃ e, rotate tvRot a image none = .error e) := by
  refine ⟨?_, rfl, ⟨_, rfl⟩, ⟨_, rfl⟩⟩
  unfold flip
  split_ifs <;> rfl

/-- C8 counterexample: a root whose `gt/` folder is empty while `image/`
holds one file — the pairing is mismatched, yet dataset construction does not
fail: it returns the positionally derived path lists, and it is the first
fetch of the sample that fails to open the label file. -/
theorem datasetInit_no_failfast :
    blurDatasetInit ⟨["a.jpg"], []⟩ = (["image/a.jpg"], ["gt/a.png"])
    ∧ fetchLabelOpens ⟨["a.jpg"], []⟩ 0 = false := by
  constructor
  · decide
  · decide

/-- C8 amended: dataset construction never validates the pairing — the label
path list is derived positionally from the image filenames' stems, so the two
lists always have equal length by construction, and whether the label file a
sample needs actually exists is only discovered at fetch time, when `_fetch`
tries to open it. -/
theorem datasetInit_defers_mismatch (d : DatasetFolder) (idx : ℕ)
    (hidx : idx < d.imageFiles.length) :
    (blurDatasetInit d).1.length = d.imageFiles.length
    ∧ (blurDatasetInit d).2.length = d.imageFiles.length
    ∧ (fetchLabelOpens d idx = true
        ↔ pathStem (d.imageFiles.getD idx "") ++ ".png" ∈ d.gtFiles) := by
  refine ⟨by simp [blurDatasetInit], by simp [blurDatasetInit], ?_⟩
  unfold fetchLabelOpens
  rw [List.getElem?_eq_getElem hidx, List.getD_eq_getElem _ _ hidx]
  simp

/-- Witness for the amended C8 on a concrete matched one-sample folder. -/
theorem datasetInit_defers_mismatch_witness :
    (blurDatasetInit ⟨["a.jpg"], ["a.png"]⟩).1.length
        = (DatasetFolder.mk ["a.jpg"] ["a.png"]).imageFiles.length
    ∧ (blurDatasetInit ⟨["a.jpg"], ["a.png"]⟩).2.length
        = (DatasetFolder.mk ["a.jpg"] ["a.png"]).imageFiles.length
    ∧ (fetchLabelOpens ⟨["a.jpg"], ["a.png"]⟩ 0 = true
        ↔ pathStem ((DatasetFolder.mk ["a.jpg"] ["a.png"]).imageFiles.getD 0 "") ++ ".png"
            ∈ (DatasetFolder.mk ["a.jpg"] ["a.png"]).gtFiles) :=
  datasetInit_defers_mismatch ⟨["a.jpg"], ["a.png"]⟩ 0 (by norm_num)

/-- C9: on a non-empty batch of (image, label, filename) samples, collation
succeeds and returns three parallel sequences, each as long as the batch,
whose i-th entries are the components of the i-th input sample — no stacking
into a single fixed-shape tensor happens (the outputs stay per-sample
lists). -/
theorem collate_fn_parallel (batch : List (α × β × γ)) (hne : batch ≠ []) :
    ∃ images labels filenames,
      collate_fn batch = .ok (images, labels, filenames)
      ∧ images.length = batch.length
      ∧ labels.length = batch.length
      ∧ filenames.length = batch.length
      ∧ ∀ i : ℕ, images[i]? = (batch[i]?).map Prod.fst
          ∧ labels[i]? = (batch[i]?).map (fun s => s.2.1)
          ∧ filenames[i]? = (batch[i]?).map (fun s => s.2.2) := by
  have heq : collate_fn batch
      = .ok (batch.map Prod.fst, batch.map (fun s => s.2.1), batch.map (fun s => s.2.2)) := by
    simp [collate_fn, hne]
  refine ⟨_, _, _, heq, by simp, by simp, by simp, ?_⟩
  intro i
  refine ⟨?_, ?_, ?_⟩ <;> simp

/-- Witness for C9 on a concrete two-sample batch. -/
theorem collate_fn_parallel_witness :
    ∃ images labels filenames,
      collate_fn [((1:ℕ), (2:ℕ), "a"), (3, 4, "b")] = .ok (images, labels, filenames)
      ∧ images.length = [((1:ℕ), (2:ℕ), "a"), (3, 4, "b")].length
      ∧ labels.length = [((1:ℕ), (2:ℕ), "a"), (3, 4, "b")].length
      ∧ filenames.length = [((1:ℕ), (2:ℕ), "a"), (3, 4, "b")].length
      ∧ ∀ i : ℕ, images[i]? = ([((1:ℕ), (2:ℕ), "a"), (3, 4, "b")][i]?).map Prod.fst
          ∧ labels[i]? = ([((1:ℕ), (2:ℕ), "a"), (3, 4, "b")][i]?).map (fun s => s.2.1)
          ∧ filenames[i]? = ([((1:ℕ), (2:ℕ), "a"), (3, 4, "b")][i]?).map (fun s => s.2.2) :=
  collate_fn_parallel [((1:ℕ), (2:ℕ), "a"), (3, 4, "b")] (by simp)

/-- C10: calling `resize` with a non-empty images sequence and an empty
labels sequence returns only the stacked images, exactly as if no labels had
been passed — the labels branch is selected by the truthiness of the
sequence (`if labels:`), which an empty sequence fails just as `None` does. -/
theorem resize_empty_labels_as_none (padResizeImage : α → α) (padResizeLabel : β → β)
    (images : List α) (_hne : images ≠ []) :
    resize padResizeImage padResizeLabel images (some ([] : List β))
        = resize padResizeImage padResizeLabel images none
    ∧ resize padResizeImage padResizeLabel images (some ([] : List β))
        = .inl (images.map padResizeImage) := by
  constructor <;> rfl

/-- Witness for C10 on a concrete one-image input. -/
theorem resize_empty_labels_as_none_witness :
    resize (id : ℕ → ℕ) (id : ℕ → ℕ) [5] (some ([] : List ℕ))
        = resize (id : ℕ → ℕ) (id : ℕ → ℕ) [5] none
    ∧ resize (id : ℕ → ℕ) (id : ℕ → ℕ) [5] (some ([] : List ℕ))
        = .inl ([5].map id) :=
  resize_empty_labels_as_none id id [5] (by simp)

end PhotoEval
